import Mathlib

/-!
Verification of the `hosts` package of go-dnsmasq
(`src/hostsfile/hostsfile.go`): a hot-reloading hostname resolution table
backed by a hosts-format text file, serving forward (domain → addresses)
and reverse (reverse-DNS name → domain) lookups, with a background poll
loop that re-parses the file when its metadata changes.

The Go code is embedded shallowly:

* `Entry`, the `(domain, ip)` pairs of the in-memory `hostlist`, with IP
  addresses as parsed IPv4 octets or IPv6 bytes;
* `FindHosts` and `FindReverse` as pure functions over the installed list
  of entries; the Go versions also return an `error` value that is never
  assigned, which is modelled by an `Option String` component that is
  always `none`;
* `NewHostsfile` as a function of the path, the `Config` and a filesystem
  read model `fs : String → Option String` (`none` = read error);
* one iteration of the `monitorHostEntries` poll loop as `monitorTick`,
  a function of the current state, the result of the `stat` call and the
  result a file read would produce; it returns the next state together
  with a flag recording whether the parser was invoked on that tick.

Strings are manipulated through their `data : List Char` field so that
all definitions evaluate by `decide`; for the ASCII separators involved
(`.`, `#`, `:`, whitespace, newline) this is byte-for-byte faithful to
the Go `strings` functions used by the source.
-/

namespace GoDnsmasqHosts

/-- An IP address held by a host entry: either four IPv4 octets or the
sixteen bytes of an IPv6 address (models Go `net.IP` at the level the
lookups use it). -/
inductive IP where
  | v4 (a b c d : Nat)
  | v6 (bytes : List Nat)
deriving DecidableEq

/-- One element of the `hostlist`: a stored domain (lower-cased, trailing
separator stripped by the parser) and its address. -/
structure Entry where
  domain : String
  ip : IP
deriving DecidableEq

/-- Model of `strings.TrimSuffix(name, ".")` as used in `FindHosts`
(src/hostsfile/hostsfile.go:69): removes one trailing `"."` if present.
`TrimSuffix` is byte-based; since `'.'` is a single ASCII byte, dropping
the last character when it is `'.'` is equivalent on UTF-8 strings. -/
def trimDot (s : String) : String :=
  match s.data.getLast? with
  | some '.' => String.mk s.data.dropLast
  | _ => s

/-- Model of `dns.Fqdn` (miekg/dns) as used in `FindReverse`
(src/hostsfile/hostsfile.go:88): appends a trailing `"."` unless one is
already present. (The library's handling of backslash-escaped trailing
dots is irrelevant to hosts-file domains and omitted.) -/
def fqdn (s : String) : String :=
  match s.data.getLast? with
  | some '.' => s
  | _ => s ++ "."

/-- Hex digit character of `n % 16`, as used in nibble rendering. -/
def hexChar (n : Nat) : Char := Nat.digitChar (n % 16)

/-- Model of `dns.ReverseAddr(ip.String())` (miekg/dns) as used in
`FindReverse` (src/hostsfile/hostsfile.go:87): the canonical reverse
lookup name of an address — reversed octets under `in-addr.arpa.` for
IPv4, reversed nibbles under `ip6.arpa.` for IPv6. -/
def reverseAddr : IP → String
  | .v4 a b c d =>
      toString d ++ "." ++ toString c ++ "." ++ toString b ++ "." ++
        toString a ++ ".in-addr.arpa."
  | .v6 bytes =>
      String.join (bytes.reverse.map fun b =>
        String.mk [hexChar (b % 16)] ++ "." ++ String.mk [hexChar (b / 16)] ++ ".") ++
        "ip6.arpa."

/-- Model of `Hostsfile.FindHosts` (src/hostsfile/hostsfile.go:68-80):
strip one trailing `"."` from the query, then scan the installed entries
in order appending the address of each whose domain equals the stripped
query. The second component models the Go `err` result, which is never
assigned and hence always nil. -/
def FindHosts (hosts : List Entry) (name : String) : List IP × Option String :=
  let n := trimDot name
  (hosts.foldl (fun addrs e => if e.domain = n then addrs ++ [e.ip] else addrs) [],
    none)

/-- The scan loop of `Hostsfile.FindReverse`
(src/hostsfile/hostsfile.go:86-91): return the fully-qualified domain of
the first entry whose reverse name equals the query (the Go loop sets
`host` and breaks), the zero value `""` if none matches. -/
def findReverseLoop : List Entry → String → String
  | [], _ => ""
  | e :: rest, name =>
      if name = reverseAddr e.ip then fqdn e.domain else findReverseLoop rest name

/-- Model of `Hostsfile.FindReverse` (src/hostsfile/hostsfile.go:82-93);
the second component models the Go `err` result, never assigned. -/
def FindReverse (hosts : List Entry) (name : String) : String × Option String :=
  (findReverseLoop hosts name, none)

/-! ### The parser (`newHostlist`)

The repository's parser file (defining `hostlist` and `newHostlist`) is
not among the provided sources; only its caller `loadHostEntries`
(src/hostsfile/hostsfile.go:95-106) is. The definitions below are
modelled from the spec, §4.1 and §6. -/

/-- Split a character list at every character satisfying `p` (separators
are dropped; empty segments are kept and filtered by the caller). -/
def splitChars (p : Char → Bool) : List Char → List (List Char)
  | [] => [[]]
  | c :: cs =>
      let rest := splitChars p cs
      if p c then [] :: rest
      else (c :: rest.headD []) :: rest.tail

/-- Lower-case a string character by character (models the parser's
hostname normalization; ASCII-faithful). -/
def lowerStr (s : String) : String := String.mk (s.data.map Char.toLower)

/-- Whitespace-separated non-empty fields of a line (models
`strings.Fields`). -/
def fieldsOf (s : String) : List String :=
  ((splitChars Char.isWhitespace s.data).map String.mk).filter (fun f => f ≠ "")

/-- The lines of the file content. -/
def linesOf (s : String) : List String :=
  (splitChars (fun c => c = '\n') s.data).map String.mk

/-- Drop everything from the first `'#'` on (a `#` introduces a line
comment, spec §6; a line beginning with `#` becomes empty and is then
skipped). -/
def stripComment (s : String) : String :=
  String.mk (s.data.takeWhile (fun c => c ≠ '#'))

/-- Parse a decimal IPv4 octet: one to three digits, value at most 255. -/
def parseDecOctet (cs : List Char) : Option Nat :=
  if cs ≠ [] ∧ cs.length ≤ 3 ∧ cs.all Char.isDigit then
    let n := cs.foldl (fun a c => a * 10 + (c.toNat - 48)) 0
    if n ≤ 255 then some n else none
  else none

/-- Parse a dotted-quad IPv4 address. -/
def parseIPv4 (s : String) : Option IP :=
  match (splitChars (fun c => c = '.') s.data).mapM parseDecOctet with
  | some [a, b, c, d] => some (.v4 a b c d)
  | _ => none

/-- Parse a colon-separated IPv6 group of one to four hex digits into its
two bytes. -/
def parseHexGroup (cs : List Char) : Option (List Nat) :=
  if cs ≠ [] ∧ cs.length ≤ 4 ∧ cs.all (fun c => c.isDigit ∨ ('a' ≤ c ∧ c ≤ 'f') ∨ ('A' ≤ c ∧ c ≤ 'F')) then
    let n := cs.foldl (fun a c =>
      a * 16 + (if c.isDigit then c.toNat - 48 else
        if 'a' ≤ c then c.toNat - 87 else c.toNat - 55)) 0
    some [n / 256, n % 256]
  else none

/-- Parse an uncompressed eight-group IPv6 address (the `::` shorthand of
the full textual syntax is not needed by any claim and is not modelled). -/
def parseIPv6 (s : String) : Option IP :=
  let groups := splitChars (fun c => c = ':') s.data
  if groups.length = 8 then
    match groups.mapM parseHexGroup with
    | some bs => some (.v6 bs.flatten)
    | none => none
  else none

/-- A valid IPv4 or IPv6 address, else `none`. -/
def parseIP (s : String) : Option IP :=
  match parseIPv4 s with
  | some ip => some ip
  | none => parseIPv6 s

/-- Modelled from the spec (§4.1): entries produced by one hosts-file
line. Comments and blank lines are skipped; field 0 must parse as an
address or the line is dropped; each remaining field yields one entry
with the hostname lower-cased and its trailing separator stripped, in
left-to-right order. -/
def parseLine (line : String) : List Entry :=
  match fieldsOf (stripComment line) with
  | [] => []
  | addr :: hostnames =>
      match parseIP addr with
      | none => []
      | some ip => hostnames.map fun hn => { domain := trimDot (lowerStr hn), ip := ip }

/-- Modelled from the spec (§4.1): `newHostlist`, the repository's parser
whose source file is not provided. It turns raw file content into the
ordered entry list, line by line, best effort, never failing. -/
def newHostlist (data : String) : List Entry :=
  ((linesOf data).map parseLine).flatten

/-! ### The refresh controller -/

/-- Model of `Config` (src/hostsfile/hostsfile.go:20-24). -/
structure Config where
  Poll : Int
  Verbose : Bool

/-- Model of the `file` field of `Hostsfile`
(src/hostsfile/hostsfile.go:30-34); Go zero values are `0`, `""`, and the
zero `time.Time` (modelled as `0`). -/
structure FileInfo where
  size : Int
  path : String
  mtime : Nat
deriving DecidableEq

/-- The observable state of a `Hostsfile`: the installed entry list and
the file metadata baseline. -/
structure HostsfileState where
  hosts : List Entry
  file : FileInfo
deriving DecidableEq

/-- Model of `NewHostsfile` (src/hostsfile/hostsfile.go:39-66) over a
filesystem read model `fs` (`fs path = none` means `ioutil.ReadFile`
fails). An empty path short-circuits to an empty hostlist before the
path is recorded or the poller considered. Otherwise `loadHostEntries`
runs: a failed read aborts construction with the error; a successful
read installs the parsed entries, leaving `size` and `mtime` at their
zero values (nothing sets them during the initial load). The boolean
records whether the `monitorHostEntries` goroutine was started, which
happens exactly when `config.Poll > 0`. -/
def NewHostsfile (path : String) (config : Config) (fs : String → Option String) :
    Except String (HostsfileState × Bool) :=
  if path = "" then
    Except.ok ({ hosts := [], file := { size := 0, path := "", mtime := 0 } }, false)
  else
    match fs path with
    | none => Except.error "read error"
    | some data =>
        Except.ok ({ hosts := newHostlist data, file := { size := 0, path := path, mtime := 0 } },
          decide (0 < config.Poll))

/-- One iteration of the `monitorHostEntries` poll loop
(src/hostsfile/hostsfile.go:109-142). Inputs: the current state, the
result of `hostsFileMetadata` (`none` = stat failure, otherwise the
observed `(mtime, size)`), and the content a file read would return
(`none` = read failure inside `loadHostEntries`). Result: the next state
and whether the parser was invoked on this tick. Per the source: a stat
failure `continue`s; metadata equal to the baseline (both `mtime.Equal`
and `size ==`) `continue`s; otherwise `loadHostEntries` runs — on read
failure the error is only logged and the entry list kept — and then the
baseline is set to the observed metadata unconditionally. -/
def monitorTick (st : HostsfileState) (statResult : Option (Nat × Int))
    (readResult : Option String) : HostsfileState × Bool :=
  match statResult with
  | none => (st, false)
  | some (mtime, size) =>
      if st.file.mtime = mtime ∧ st.file.size = size then (st, false)
      else
        match readResult with
        | none =>
            ({ st with file := { st.file with mtime := mtime, size := size } }, false)
        | some data =>
            ({ hosts := newHostlist data,
               file := { st.file with mtime := mtime, size := size } }, true)

/-! ### Helper lemmas -/

theorem trimDot_append_dot (s : String) : trimDot (s ++ ".") = s := by
  simp [trimDot, String.data_append]

theorem trimDot_eq_self (s : String) (h : s.data.getLast? ≠ some '.') :
    trimDot s = s := by
  unfold trimDot
  split
  · simp_all
  · rfl

theorem string_append_two_dots (s : String) : s ++ ".." = (s ++ ".") ++ "." := by
  apply String.ext
  have h1 : ("..").data = ['.', '.'] := rfl
  have h2 : (".").data = ['.'] := rfl
  simp [String.data_append, h1, h2]

theorem trimDot_append_two_dots (s : String) : trimDot (s ++ "..") = s ++ "." := by
  rw [string_append_two_dots, trimDot_append_dot]

theorem getLast_append_dot (s : String) : (s ++ ".").data.getLast? = some '.' := by
  have h2 : (".").data = ['.'] := rfl
  simp [String.data_append, h2]

theorem findHosts_foldl (n : String) (hosts : List Entry) (acc : List IP) :
    hosts.foldl (fun addrs e => if e.domain = n then addrs ++ [e.ip] else addrs) acc
      = acc ++ (hosts.filter fun e => e.domain = n).map Entry.ip := by
  induction hosts generalizing acc with
  | nil => simp
  | cons e rest ih =>
      by_cases h : e.domain = n <;> simp [List.filter_cons, h, ih]

theorem FindHosts_eq (hosts : List Entry) (name : String) :
    FindHosts hosts name
      = ((hosts.filter fun e => e.domain = trimDot name).map Entry.ip, none) := by
  show (hosts.foldl (fun addrs e => if e.domain = trimDot name then addrs ++ [e.ip] else addrs) [],
      (none : Option String))
    = ((hosts.filter fun e => e.domain = trimDot name).map Entry.ip, none)
  rw [findHosts_foldl]
  rfl

theorem findReverseLoop_eq (hosts : List Entry) (name : String) :
    findReverseLoop hosts name
      = ((hosts.find? fun e => name = reverseAddr e.ip).elim "" fun e => fqdn e.domain) := by
  induction hosts with
  | nil => rfl
  | cons e rest ih =>
      by_cases h : name = reverseAddr e.ip <;>
        simp [findReverseLoop, List.find?_cons, h, ih]

theorem monitorTick_unchanged (st : HostsfileState) (m : Nat) (s : Int)
    (rd : Option String) (h1 : st.file.mtime = m) (h2 : st.file.size = s) :
    monitorTick st (some (m, s)) rd = (st, false) := by
  simp only [monitorTick]
  rw [if_pos ⟨h1, h2⟩]

theorem monitorTick_changed_load_ok (st : HostsfileState) (m : Nat) (s : Int) (data : String)
    (hch : ¬(st.file.mtime = m ∧ st.file.size = s)) :
    monitorTick st (some (m, s)) (some data)
      = ({ hosts := newHostlist data, file := { st.file with mtime := m, size := s } }, true) := by
  simp only [monitorTick]
  rw [if_neg hch]

theorem monitorTick_changed_load_failed (st : HostsfileState) (m : Nat) (s : Int)
    (hch : ¬(st.file.mtime = m ∧ st.file.size = s)) :
    monitorTick st (some (m, s)) none
      = ({ st with file := { st.file with mtime := m, size := s } }, false) := by
  simp only [monitorTick]
  rw [if_neg hch]

/-! ### Concrete fixtures used by witnesses and counterexamples -/

/-- A one-entry table holding the stored (lower-cased) domain
`foo.example.com`, as the parser would produce from
`10.0.0.5 foo.example.com`. -/
def tableFoo : List Entry := [{ domain := "foo.example.com", ip := .v4 10 0 0 5 }]

/-- A table in which two entries share the address `10.0.0.5`. -/
def revTable : List Entry :=
  newHostlist "10.0.0.5 foo.example.com\n10.0.0.5 bar.example.com"

/-- A filesystem model with one file `hosts`. -/
def fs0 : String → Option String :=
  fun p => if p = "hosts" then some "10.0.0.5 foo.example.com" else none

/-- The state `NewHostsfile "hosts" _ fs0` installs. -/
def st0 : HostsfileState :=
  { hosts := tableFoo, file := { size := 0, path := "hosts", mtime := 0 } }

/-- A state whose baseline is a previously observed metadata pair. -/
def st22 : HostsfileState :=
  { hosts := tableFoo, file := { size := 22, path := "hosts", mtime := 100 } }

/-- A state with baseline mtime 5, size 10. -/
def st3 : HostsfileState :=
  { hosts := tableFoo, file := { size := 10, path := "hosts", mtime := 5 } }

/-- The empty state produced by construction with an empty path. -/
def emptyState : HostsfileState :=
  { hosts := [], file := { size := 0, path := "", mtime := 0 } }

/-! ### Claims -/

/-- C4: for every installed Table and query name, `FindHosts` strips a
trailing separator from the query, scans the Table in order, and returns
exactly the addresses of the entries whose stored domain equals the
normalized query, in Table order; no match gives the empty list, and the
error result is always nil. -/
theorem findHosts_spec (hosts : List Entry) (name : String) :
    (FindHosts hosts name).1 = (hosts.filter fun e => e.domain = trimDot name).map Entry.ip
    ∧ (FindHosts hosts name).2 = none
    ∧ ((∀ e ∈ hosts, e.domain ≠ trimDot name) → (FindHosts hosts name).1 = []) := by
  rw [FindHosts_eq]
  refine ⟨rfl, rfl, fun h => ?_⟩
  have hf : hosts.filter (fun e => e.domain = trimDot name) = [] :=
    List.filter_eq_nil_iff.mpr fun e he => by simpa using h e he
  simp [hf]

/-- Witness for `findHosts_spec` at a concrete table and non-matching
query. -/
theorem findHosts_spec_witness : (FindHosts tableFoo "absent.example.com").1 = [] :=
  (findHosts_spec tableFoo "absent.example.com").2.2 (by decide)

/-- C5: for every installed Table and reverse query name, `FindReverse`
returns the fully-qualified domain of the first (lowest file-order) entry
whose address's canonical reverse name equals the query, stopping at that
entry; no match gives the empty string, and the error result is always
nil. -/
theorem findReverse_spec (hosts : List Entry) (name : String) :
    (FindReverse hosts name).1
      = ((hosts.find? fun e => name = reverseAddr e.ip).elim "" fun e => fqdn e.domain)
    ∧ (FindReverse hosts name).2 = none
    ∧ ((∀ e ∈ hosts, name ≠ reverseAddr e.ip) → (FindReverse hosts name).1 = "")
    ∧ (∀ e rest, hosts = e :: rest → name = reverseAddr e.ip →
        (FindReverse hosts name).1 = fqdn e.domain) := by
  refine ⟨findReverseLoop_eq hosts name, rfl, fun h => ?_, fun e rest he hm => ?_⟩
  · show findReverseLoop hosts name = ""
    rw [findReverseLoop_eq]
    have hn : hosts.find? (fun e => name = reverseAddr e.ip) = none :=
      List.find?_eq_none.mpr fun e he => by simpa using h e he
    rw [hn]
    rfl
  · subst he
    show findReverseLoop (e :: rest) name = fqdn e.domain
    simp [findReverseLoop, hm]

/-- Witness for `findReverse_spec`: on a table where two entries share
the address `10.0.0.5`, the reverse lookup of `5.0.0.10.in-addr.arpa.`
returns the first entry's domain, fully qualified. -/
theorem findReverse_spec_witness :
    (FindReverse revTable "5.0.0.10.in-addr.arpa.").1 = "foo.example.com." := by
  have h := (findReverse_spec revTable "5.0.0.10.in-addr.arpa.").2.2.2
    { domain := "foo.example.com", ip := .v4 10 0 0 5 }
    [{ domain := "bar.example.com", ip := .v4 10 0 0 5 }] (by decide) (by decide)
  exact h.trans (by decide)

/-- C7: construction with an empty path always succeeds with the empty
Table — every forward lookup over it returns the empty list and every
reverse lookup the empty string — and starts no poller, whatever the
configured poll interval. -/
theorem newHostsfile_empty_path (config : Config) (fs : String → Option String)
    (name : String) :
    NewHostsfile "" config fs = Except.ok (emptyState, false)
    ∧ (FindHosts emptyState.hosts name).1 = []
    ∧ (FindReverse emptyState.hosts name).1 = "" :=
  ⟨rfl, rfl, rfl⟩

/-- C8: a poll tick whose stat fails leaves the state (installed Table
and baseline) unchanged and does not invoke the parser, whatever a read
would have returned. -/
theorem monitorTick_stat_failure (st : HostsfileState) (readResult : Option String) :
    monitorTick st none readResult = (st, false) := rfl

/-- C1, counterexample: `FindHosts` is not case-insensitive. Over a
table storing the lower-cased domain `foo.example.com`, the query
`FOO.EXAMPLE.COM.` does not return the same addresses as
`foo.example.com` (it returns none; the source compares the
separator-stripped query to the stored domain by plain string
equality, without lower-casing it). -/
theorem findHosts_uppercase_query_differs :
    (FindHosts tableFoo "FOO.EXAMPLE.COM.").1 ≠ (FindHosts tableFoo "foo.example.com").1 := by
  decide

/-- C1, amended: `FindHosts` is trailing-separator-insensitive but
case-sensitive — a query with one trailing separator added returns the
same addresses as without it, while a query (such as an upper-case
variant of a stored lower-cased domain) that is not byte-identical to
any stored domain after separator stripping returns the empty list. -/
theorem findHosts_separator_insensitive_case_sensitive (hosts : List Entry) (name : String)
    (hdot : name.data.getLast? ≠ some '.') :
    (FindHosts hosts (name ++ ".")).1 = (FindHosts hosts name).1
    ∧ ((∀ e ∈ hosts, e.domain ≠ name) → (FindHosts hosts name).1 = []) := by
  have hn : trimDot name = name := trimDot_eq_self name hdot
  constructor
  · rw [FindHosts_eq, FindHosts_eq, trimDot_append_dot, hn]
  · intro h
    rw [FindHosts_eq]
    have hf : hosts.filter (fun e => e.domain = trimDot name) = [] :=
      List.filter_eq_nil_iff.mpr fun e he => by simpa [hn] using h e he
    simp [hf]

/-- Witness for `findHosts_separator_insensitive_case_sensitive` at the
upper-case query of the C1 counterexample. -/
theorem findHosts_separator_insensitive_case_sensitive_witness :
    (FindHosts tableFoo "FOO.EXAMPLE.COM.").1 = (FindHosts tableFoo "FOO.EXAMPLE.COM").1
    ∧ (FindHosts tableFoo "FOO.EXAMPLE.COM").1 = [] :=
  ⟨(findHosts_separator_insensitive_case_sensitive tableFoo "FOO.EXAMPLE.COM" (by decide)).1,
   (findHosts_separator_insensitive_case_sensitive tableFoo "FOO.EXAMPLE.COM" (by decide)).2
     (by decide)⟩

/-- C10: query normalization strips at most one trailing separator —
appending one separator to a separator-free query leaves the result
unchanged, while a query with two trailing separators is normalized only
to one trailing separator and hence matches no stored separator-free
domain. -/
theorem findHosts_strips_at_most_one_dot (hosts : List Entry) (name : String)
    (hdot : name.data.getLast? ≠ some '.') :
    (FindHosts hosts (name ++ ".")).1 = (FindHosts hosts name).1
    ∧ trimDot (name ++ "..") = name ++ "."
    ∧ ((∀ e ∈ hosts, e.domain.data.getLast? ≠ some '.') →
        (FindHosts hosts (name ++ "..")).1 = []) := by
  refine ⟨?_, trimDot_append_two_dots name, fun h => ?_⟩
  · rw [FindHosts_eq, FindHosts_eq, trimDot_append_dot, trimDot_eq_self name hdot]
  · rw [FindHosts_eq, trimDot_append_two_dots]
    have hf : hosts.filter (fun e => e.domain = name ++ ".") = [] := by
      refine List.filter_eq_nil_iff.mpr fun e he => ?_
      simp only [decide_eq_true_eq]
      intro heq
      exact h e he (heq ▸ getLast_append_dot name)
    simp [hf]

/-- Witness for `findHosts_strips_at_most_one_dot` at the concrete
table. -/
theorem findHosts_strips_at_most_one_dot_witness :
    (FindHosts tableFoo "foo.example.com.").1 = (FindHosts tableFoo "foo.example.com").1
    ∧ (FindHosts tableFoo "foo.example.com..").1 = [] :=
  ⟨(findHosts_strips_at_most_one_dot tableFoo "foo.example.com" (by decide)).1,
   (findHosts_strips_at_most_one_dot tableFoo "foo.example.com" (by decide)).2.2 (by decide)⟩

/-- C2, counterexample: construction does not capture the file's
metadata as the refresh baseline. With the file at `hosts` having
modification time 100 and size 22 both at load time and at the first
tick (i.e. unchanged), construction installs a baseline of zero values,
and the first tick re-invokes the parser even though the file is
unchanged — contradicting the claim that the baseline equals the
load-time metadata and that no re-parse happens on such a tick. -/
theorem newHostsfile_first_tick_reparses_unchanged_file :
    NewHostsfile "hosts" { Poll := 5, Verbose := false } fs0 = Except.ok (st0, true)
    ∧ st0.file.mtime = 0 ∧ st0.file.size = 0
    ∧ (monitorTick st0 (some (100, 22)) (fs0 "hosts")).2 = true :=
  ⟨rfl, rfl, rfl, by decide⟩

/-- C2, amended: after construction with a non-empty readable path the
refresh baseline holds the zero values (modification time 0, size 0),
not the file's load-time metadata; consequently a first tick observing
any metadata other than the zero values re-invokes the parser even for a
file unchanged since the load, and only a tick in which the observed
metadata equals the currently held baseline skips the re-parse. -/
theorem newHostsfile_zero_baseline (path : String) (config : Config)
    (fs : String → Option String) (data rd : String) (st stB : HostsfileState)
    (started : Bool) (m : Nat) (s : Int) (rdB : Option String)
    (hpath : path ≠ "") (hfs : fs path = some data)
    (hok : NewHostsfile path config fs = Except.ok (st, started))
    (hms : ¬(m = 0 ∧ s = 0))
    (hBm : stB.file.mtime = m) (hBs : stB.file.size = s) :
    st.file.mtime = 0 ∧ st.file.size = 0
    ∧ (monitorTick st (some (m, s)) (some rd)).2 = true
    ∧ monitorTick stB (some (m, s)) rdB = (stB, false) := by
  unfold NewHostsfile at hok
  rw [if_neg hpath, hfs] at hok
  injection hok with h
  injection h with h1 h2
  subst h1
  refine ⟨rfl, rfl, ?_, monitorTick_unchanged stB m s rdB hBm hBs⟩
  rw [monitorTick_changed_load_ok _ m s rd ?_]
  rintro ⟨hm1, hs1⟩
  exact hms ⟨hm1.symm, hs1.symm⟩

/-- Witness for `newHostsfile_zero_baseline` at the concrete filesystem
`fs0`. -/
theorem newHostsfile_zero_baseline_witness :
    st0.file.mtime = 0 ∧ st0.file.size = 0
    ∧ (monitorTick st0 (some (100, 22)) (some "10.0.0.5 foo.example.com")).2 = true
    ∧ monitorTick st22 (some (100, 22)) (some "ignored") = (st22, false) :=
  newHostsfile_zero_baseline "hosts" { Poll := 5, Verbose := false } fs0
    "10.0.0.5 foo.example.com" "10.0.0.5 foo.example.com" st0 st22 true 100 22
    (some "ignored") (by decide) rfl rfl (by decide) rfl rfl

/-- C3, counterexample: on a tick whose metadata changed but whose
re-load fails, the baseline is not retained. From baseline
(mtime 5, size 10), observing (mtime 6, size 11) with a failing read
keeps the installed Table but changes both baseline components —
contradicting the claim that the baseline is retained unchanged and
updated only on a successful re-load. -/
theorem monitorTick_failed_load_changes_baseline :
    (monitorTick st3 (some (6, 11)) none).1.hosts = st3.hosts
    ∧ (monitorTick st3 (some (6, 11)) none).1.file.mtime ≠ st3.file.mtime
    ∧ (monitorTick st3 (some (6, 11)) none).1.file.size ≠ st3.file.size := by
  decide

/-- C3, amended: on a tick whose metadata changed but whose re-load
fails, the previously installed Table is retained and the parser result
is not installed, but the baseline is nonetheless updated to the newly
observed modification time and size (the source updates it
unconditionally after the load attempt). -/
theorem monitorTick_load_failure_updates_baseline (st : HostsfileState) (m : Nat) (s : Int)
    (hch : ¬(st.file.mtime = m ∧ st.file.size = s)) :
    (monitorTick st (some (m, s)) none).1.hosts = st.hosts
    ∧ (monitorTick st (some (m, s)) none).1.file.mtime = m
    ∧ (monitorTick st (some (m, s)) none).1.file.size = s
    ∧ (monitorTick st (some (m, s)) none).1.file.path = st.file.path
    ∧ (monitorTick st (some (m, s)) none).2 = false := by
  rw [monitorTick_changed_load_failed st m s hch]
  exact ⟨rfl, rfl, rfl, rfl, rfl⟩

/-- Witness for `monitorTick_load_failure_updates_baseline` at the
concrete state `st3`. -/
theorem monitorTick_load_failure_updates_baseline_witness :
    (monitorTick st3 (some (6, 11)) none).1.hosts = st3.hosts
    ∧ (monitorTick st3 (some (6, 11)) none).1.file.mtime = 6
    ∧ (monitorTick st3 (some (6, 11)) none).1.file.size = 11
    ∧ (monitorTick st3 (some (6, 11)) none).1.file.path = st3.file.path
    ∧ (monitorTick st3 (some (6, 11)) none).2 = false :=
  monitorTick_load_failure_updates_baseline st3 6 11 (by decide)

/-- C6: construction with a non-empty path fails exactly when reading
the file fails, and then yields only the error (no state is installed
and no poller is started, there being no instance at all); on a failed
read the result is precisely the propagated read error. -/
theorem newHostsfile_error_iff_read_fails (path : String) (config : Config)
    (fs : String → Option String) (hpath : path ≠ "") :
    ((∃ e, NewHostsfile path config fs = Except.error e) ↔ fs path = none)
    ∧ (fs path = none → NewHostsfile path config fs = Except.error "read error") := by
  unfold NewHostsfile
  rw [if_neg hpath]
  cases hfs : fs path with
  | none => simp
  | some data => simp

/-- Witness for `newHostsfile_error_iff_read_fails` on a filesystem
where every read fails. -/
theorem newHostsfile_error_iff_read_fails_witness :
    NewHostsfile "hosts" { Poll := 5, Verbose := false } (fun _ => none)
      = Except.error "read error" :=
  (newHostsfile_error_iff_read_fails "hosts" { Poll := 5, Verbose := false }
    (fun _ => none) (by decide)).2 rfl

end GoDnsmasqHosts
